import Mathlib

/-!
# capture1: a verification development

Shallow embedding of `examples/capture1/capture1.go` (function `main`).

The program is orchestration glue around three external libraries: the
`device` / `v4l2` packages (capture device), `image` / `image/jpeg`
(codec) and `os` (files).  Their results are inputs of the model: a
`Device` record gives what every device call returns, a `Host` record gives
what the codec and the file system return.  A run of `main` is the list of
observable events (device calls, file operations, log lines, standard
output) together with the process exit status.

Go values are embedded as follows.
* `error` is `Option String`, `none` being `nil`.
* a slice is a `List`; the `nil` slice is `[]` (the program only ever
  tests `sizes == nil || len(sizes) == 0`).
* `int` (64 bit) is `Int` for the flags; the loop counter `count` only
  takes the values `0 .. totalFrames`, so it never wraps and is a `Nat`.
* `uint32(width)` is reduction modulo `2 ^ 32`.
* a channel that delivers `m` frames and is then closed is the list of
  those frames.
* log lines carry the format string of the source, not the rendered text.
-/

namespace Capture1

/-! ## Data model -/

/-- Go `error`: `none` is `nil`. -/
abbrev GoError := Option String

abbrev Byte := Fin 256

/-- A frame delivered by the device: `[]byte`. -/
abbrev Bytes := List Byte

/-- The `v4l2.FrameSize` fields read by the program (`uint32`). -/
structure FrameSize where
  MinWidth : Nat
  MinHeight : Nat
deriving DecidableEq, Repr, Inhabited

/-- The `v4l2.FrameSizeEnum` fields read by the program. -/
structure FrameSizeEnum where
  Size : FrameSize
deriving DecidableEq, Repr, Inhabited

/-- The `v4l2.FormatDescription` fields read by the program.  The zero value
is the Go zero value `v4l2.FormatDescription{}`. -/
structure FormatDescription where
  PixelFormat : Nat
  Description : String
deriving DecidableEq, Repr

def FormatDescription.zero : FormatDescription := ⟨0, ""⟩

/-- The `v4l2.PixFormat` fields set by the program. -/
structure PixFormat where
  Width : Nat
  Height : Nat
  PixelFormat : Nat
  Field : Nat
deriving DecidableEq, Repr

/-- The constants of package `v4l2` named by the program.  They are declared
in the library, not in the program, and are therefore parameters. -/
structure V4L2 where
  PixelFmtMPEG : Nat
  PixelFmtMJPEG : Nat
  PixelFmtJPEG : Nat
  PixelFmtYUYV : Nat
  FieldNone : Nat
deriving DecidableEq, Repr

/-- A decoded `image.Image`; the program only hands it to `jpeg.Encode`. -/
structure Image where
  pixels : List Nat
deriving DecidableEq, Repr

/-- What the capture device answers to every call the program makes. -/
structure Device where
  v4l2 : V4L2
  Open : String → GoError
  GetFrameRate : Nat × GoError
  GetAllFormatDescriptions : List FormatDescription × GoError
  GetFormatFrameSizes : Nat → List FrameSizeEnum × GoError
  SetPixFormat : PixFormat → GoError
  GetPixFormat : PixFormat × GoError
  Start : GoError
  BufferCount : Nat
  /-- The frames the output channel delivers before it is closed. -/
  GetOutput : List Bytes
  Stop : GoError

/-- What the codec and the file system answer. -/
structure Host where
  /-- Result of `image.Decode`: the image and its format name, or an error. -/
  Decode : Bytes → Except String (Image × String)
  /-- Result of `jpeg.Encode`: the error. -/
  Encode : Image → GoError
  /-- Result of `os.Create`. -/
  Create : String → GoError
  /-- Result of `file.Write`. -/
  Write : String → Bytes → GoError
  /-- Result of `file.Close`. -/
  Close : String → GoError

/-- The parsed command line. -/
structure Flags where
  devName : String
  totalFrames : Int
  width : Int
  height : Int
deriving DecidableEq, Repr

/-- The values of the flags when none is given on the command line. -/
def Flags.defaults : Flags := ⟨"/dev/video0", 3, 640, 480⟩

/-- Observable events of a run, in program order. -/
inductive Event where
  | devOpen (devName : String) (err : GoError)
  | devGetFrameRate (err : GoError)
  | devGetAllFormatDescriptions (err : GoError)
  | devGetFormatFrameSizes (pixFmt : Nat) (err : GoError)
  | devSetPixFormat (fmt : PixFormat) (err : GoError)
  | devGetPixFormat (err : GoError)
  | devStart (err : GoError)
  | devBufferCount
  | devRecv (frame : Bytes)
  | cancel
  | devStop (err : GoError)
  | devClose
  | osCreate (fileName : String) (err : GoError)
  | fileWrite (fileName : String) (data : Bytes) (err : GoError)
  | fileClose (fileName : String) (err : GoError)
  | log (format : String)
  | logFatal (format : String)
  | println (line : String)
deriving DecidableEq, Repr

/-- A finished run: its events and the exit status of the process. -/
structure Run where
  trace : List Event
  status : Nat
deriving DecidableEq, Repr

/-! ## The program -/

/-- The conversion `uint32(x)` of an `int`. -/
def toUint32 (x : Int) : Nat := (x % 4294967296).toNat

/-- The closure `findPreferredFmt`: the first description of `allFormats`
with the given pixel format. -/
def findPreferredFmt : List FormatDescription → Nat → FormatDescription × GoError
  | [], _ => (FormatDescription.zero, some "preferred format not found")
  | desc :: rest, pixEncoding =>
    if desc.PixelFormat = pixEncoding then (desc, none)
    else findPreferredFmt rest pixEncoding

/-- The slice `preferredPixFmts`. -/
def preferredPixFmts (c : V4L2) : List Nat :=
  [c.PixelFmtMPEG, c.PixelFmtMJPEG, c.PixelFmtJPEG, c.PixelFmtYUYV]

/-- State of the search loop: the variables `sizes` and `preferredFmt`, and
the events so far. -/
structure Search where
  sizes : List FrameSizeEnum
  preferredFmt : FormatDescription
  events : List Event
deriving DecidableEq, Repr

/-- The loop `for _, pixFmt := range preferredPixFmts`, started with the
given values of `sizes` and `preferredFmt`. -/
def searchPreferred (dev : Device) (allFormats : List FormatDescription) :
    List Nat → List FrameSizeEnum → FormatDescription → Search
  | [], sizes, preferredFmt => ⟨sizes, preferredFmt, []⟩
  | pixFmt :: rest, sizes, _ =>
    match findPreferredFmt allFormats pixFmt with
    | (preferredFmt, some _) => searchPreferred dev allFormats rest sizes preferredFmt
    | (preferredFmt, none) =>
      let r := dev.GetFormatFrameSizes preferredFmt.PixelFormat
      let ev := Event.devGetFormatFrameSizes preferredFmt.PixelFormat r.2
      match r.2 with
      | some _ =>
        let s := searchPreferred dev allFormats rest r.1 preferredFmt
        ⟨s.sizes, s.preferredFmt, ev :: s.events⟩
      | none =>
        if r.1.length > 0 then ⟨r.1, preferredFmt, [ev]⟩
        else
          let s := searchPreferred dev allFormats rest r.1 preferredFmt
          ⟨s.sizes, s.preferredFmt, ev :: s.events⟩

/-- The search loop as `main` runs it: over `preferredPixFmts`, with `sizes`
nil and `preferredFmt` the zero value at the start. -/
def negotiated (dev : Device) : Search :=
  searchPreferred dev dev.GetAllFormatDescriptions.1 (preferredPixFmts dev.v4l2) []
    FormatDescription.zero

/-- The loop that sets `prefSizeFound`. -/
def prefSizeFound (width height : Int) : List FrameSizeEnum → Bool
  | [] => false
  | size :: rest =>
    if size.Size.MinWidth = toUint32 width ∧ size.Size.MinHeight = toUint32 height then true
    else prefSizeFound width height rest

/-- The text `fmt.Sprintf("capture_%d.jpg", count)`. -/
def fileName (count : Nat) : String := "capture_" ++ toString count ++ ".jpg"

/-- The body of the frame loop after `count++`, for the frame `frame`. -/
def processFrame (host : Host) (count : Nat) (frame : Bytes) : List Event :=
  if frame.length = 0 then [Event.log "received frame size 0"]
  else
    match host.Decode frame with
    | .error _ => [Event.log "captured %d bytes", Event.log "failed to decode jpeg: %s"]
    | .ok (img, _) =>
      match host.Encode img with
      | some _ =>
        [Event.log "captured %d bytes", Event.log "decoded image format: %s",
         Event.log "failed to encode jpeg: %s"]
      | none =>
        match host.Create (fileName count) with
        | some e =>
          [Event.log "captured %d bytes", Event.log "decoded image format: %s",
           Event.osCreate (fileName count) (some e), Event.log "failed to create file %s: %s"]
        | none =>
          match host.Write (fileName count) frame with
          | some e =>
            [Event.log "captured %d bytes", Event.log "decoded image format: %s",
             Event.osCreate (fileName count) none,
             Event.fileWrite (fileName count) frame (some e),
             Event.log "failed to write file %s: %s",
             Event.fileClose (fileName count) (host.Close (fileName count))]
          | none =>
            [Event.log "captured %d bytes", Event.log "decoded image format: %s",
             Event.osCreate (fileName count) none,
             Event.fileWrite (fileName count) frame none,
             Event.log "Saved file: %s",
             Event.fileClose (fileName count) (host.Close (fileName count))] ++
            (match host.Close (fileName count) with
             | some _ => [Event.log "failed to close file %s: %s"]
             | none => [])

/-- The loop `for frame := range device.GetOutput()`, entered with the given
value of `count`: the final value of `count` and the events. -/
def frameLoop (host : Host) (totalFrames : Int) : List Bytes → Nat → Nat × List Event
  | [], count => (count, [])
  | frame :: rest, count =>
    if (count : Int) ≥ totalFrames then (count, [Event.devRecv frame])
    else
      let r := frameLoop host totalFrames rest (count + 1)
      (r.1, Event.devRecv frame :: (processFrame host (count + 1) frame ++ r.2))

/-- The end of `main`: `cancel()`, `device.Stop()`, the message, and, when
`main` returns, the `device.Close()` of the `defer` statement.  `os.Exit`
does not run it. -/
def shutdown (dev : Device) : Run :=
  match dev.Stop with
  | some e => ⟨[Event.cancel, Event.devStop (some e), Event.println e], 1⟩
  | none => ⟨[Event.cancel, Event.devStop none, Event.println "Done.", Event.devClose], 0⟩

/-- The `v4l2.PixFormat` literal handed to `device.SetPixFormat`, built from
`prefSize := sizes[0]` and `preferredFmt`.  (`sizes` is not empty where the
program reaches this point.) -/
def chosenPixFormat (dev : Device) (sizes : List FrameSizeEnum)
    (preferredFmt : FormatDescription) : PixFormat :=
  let prefSize := sizes.headD default
  ⟨prefSize.Size.MinWidth, prefSize.Size.MinHeight, preferredFmt.PixelFormat, dev.v4l2.FieldNone⟩

/-- The part of `main` from `// select size` on.  The assignments to `width`
and `height` in the branch `!prefSizeFound` are only read by the log line
before them, so they leave no trace here. -/
def configureAndCapture (dev : Device) (host : Host) (flags : Flags)
    (sizes : List FrameSizeEnum) (preferredFmt : FormatDescription) : Run :=
  let found := prefSizeFound flags.width flags.height sizes
  let evSize :=
    (if found then []
     else [Event.log "Specified size %dx%d not supported, setting to %dx%d: %s"]) ++
    [Event.log "Found preferred size: %#v"]
  let fmt := chosenPixFormat dev sizes preferredFmt
  match dev.SetPixFormat fmt with
  | some e =>
    ⟨evSize ++ [Event.devSetPixFormat fmt (some e), Event.logFatal "failed to set format: %s"], 1⟩
  | none =>
    match dev.GetPixFormat.2 with
    | some e =>
      ⟨evSize ++ [Event.devSetPixFormat fmt none, Event.devGetPixFormat (some e),
        Event.logFatal "failed to get format: %s"], 1⟩
    | none =>
      match dev.Start with
      | some e =>
        ⟨evSize ++ [Event.devSetPixFormat fmt none, Event.devGetPixFormat none,
          Event.log "Pixel format set to [%s]", Event.devStart (some e),
          Event.logFatal "failed to stream: %s"], 1⟩
      | none =>
        let loop := frameLoop host flags.totalFrames dev.GetOutput 0
        let fin := shutdown dev
        ⟨evSize ++ [Event.devSetPixFormat fmt none, Event.devGetPixFormat none,
          Event.log "Pixel format set to [%s]", Event.devStart none,
          Event.devBufferCount, Event.log "Capturing %d frames (buffers: %d, %d fps)..."] ++
          loop.2 ++ fin.trace, fin.status⟩

/-- The function `main`, after `flag.Parse()`. -/
def main (dev : Device) (host : Host) (flags : Flags) : Run :=
  match dev.Open flags.devName with
  | some e =>
    ⟨[Event.devOpen flags.devName (some e), Event.logFatal "failed to open device: %s"], 1⟩
  | none =>
    match dev.GetFrameRate.2 with
    | some e =>
      ⟨[Event.devOpen flags.devName none, Event.devGetFrameRate (some e),
        Event.logFatal "failed to get framerate: %s"], 1⟩
    | none =>
      match dev.GetAllFormatDescriptions.2 with
      | some e =>
        ⟨[Event.devOpen flags.devName none, Event.devGetFrameRate none,
          Event.devGetAllFormatDescriptions (some e),
          Event.logFatal "failed to get format descriptions: %s"], 1⟩
      | none =>
        let s := negotiated dev
        let evHead := [Event.devOpen flags.devName none, Event.devGetFrameRate none,
          Event.devGetAllFormatDescriptions none] ++ s.events
        if s.sizes.length = 0 then
          ⟨evHead ++ [Event.logFatal "no appropriate sizes found for specified format: %s"], 1⟩
        else
          let r := configureAndCapture dev host flags s.sizes s.preferredFmt
          ⟨evHead ++ r.trace, r.status⟩

/-! ## Concrete devices and hosts used to evaluate the program -/

/-- The four-character codes and the field order of the Linux V4L2 headers. -/
def linuxV4L2 : V4L2 :=
  ⟨1195724877, 1196444237, 1195724874, 1448695129, 1⟩

/-- A host on which every frame decodes and every file operation succeeds. -/
def goodHost : Host :=
  { Decode := fun _ => .ok (⟨[]⟩, "jpeg")
    Encode := fun _ => none
    Create := fun _ => none
    Write := fun _ _ => none
    Close := fun _ => none }

/-- A device offering MJPEG in 320x240 and 640x480 that delivers the given
frames. -/
def webcam (frames : List Bytes) : Device :=
  { v4l2 := linuxV4L2
    Open := fun _ => none
    GetFrameRate := (30, none)
    GetAllFormatDescriptions := ([⟨1196444237, "Motion-JPEG"⟩], none)
    GetFormatFrameSizes := fun p =>
      if p = 1196444237 then ([⟨⟨320, 240⟩⟩, ⟨⟨640, 480⟩⟩], none) else ([], some "EINVAL")
    SetPixFormat := fun _ => none
    GetPixFormat := (⟨320, 240, 1196444237, 1⟩, none)
    Start := none
    BufferCount := 2
    GetOutput := frames
    Stop := none }

/-! ## Definitions used to state the properties -/

/-- Events of handling the given frames one after the other, none being cut
off by the frame limit: the frame at offset `i` is handled as frame
`count + i + 1`. -/
def processAll (host : Host) : List Bytes → Nat → List Event
  | [], _ => []
  | frame :: rest, count =>
    Event.devRecv frame :: (processFrame host (count + 1) frame ++ processAll host rest (count + 1))

/-- The names of the files a trace creates: the successful `os.Create` calls. -/
def filesCreated : List Event → List String
  | [] => []
  | Event.osCreate name none :: rest => name :: filesCreated rest
  | _ :: rest => filesCreated rest

/-- The successful `file.Write` calls of a trace: file name and content. -/
def filesWritten : List Event → List (String × Bytes)
  | [] => []
  | Event.fileWrite name data none :: rest => (name, data) :: filesWritten rest
  | _ :: rest => filesWritten rest

/-- The frames a trace receives from the output channel. -/
def framesReceived : List Event → List Bytes
  | [] => []
  | Event.devRecv frame :: rest => frame :: framesReceived rest
  | _ :: rest => framesReceived rest

/-- A setup call that returned an error and is followed by `log.Fatalf` in
the source. -/
def Event.fatalSetupError : Event → Bool
  | .devOpen _ (some _) => true
  | .devGetFrameRate (some _) => true
  | .devGetAllFormatDescriptions (some _) => true
  | .devSetPixFormat _ (some _) => true
  | .devGetPixFormat (some _) => true
  | .devStart (some _) => true
  | _ => false

/-- A setup call that returned an error, frame-size queries included. -/
def Event.setupError : Event → Bool
  | .devGetFormatFrameSizes _ (some _) => true
  | e => e.fatalSetupError

/-- The events before the pixel format is set: successful open and queries,
frame-size queries, log lines. -/
def Event.isQuery : Event → Bool
  | .devOpen _ none => true
  | .devGetFrameRate none => true
  | .devGetAllFormatDescriptions none => true
  | .devGetFormatFrameSizes _ _ => true
  | .log _ => true
  | _ => false

/-- The events of the frame loop: received frames, file operations, log
lines. -/
def Event.isCapture : Event → Bool
  | .devRecv _ => true
  | .osCreate _ _ => true
  | .fileWrite _ _ _ => true
  | .fileClose _ _ => true
  | .log _ => true
  | _ => false

/-- The device lists the pixel format, and its frame-size query returns a
non-empty list without error. -/
def usable (dev : Device) (pixFmt : Nat) : Bool :=
  dev.GetAllFormatDescriptions.1.any (fun desc => decide (desc.PixelFormat = pixFmt)) &&
    ((dev.GetFormatFrameSizes pixFmt).2.isNone && !(dev.GetFormatFrameSizes pixFmt).1.isEmpty)

/-- The first usable pixel format in the preference order. -/
def firstUsable (dev : Device) : Option Nat :=
  (preferredPixFmts dev.v4l2).find? (usable dev)

/-- A device offering MPEG and MJPEG whose frame-size query fails for MPEG. -/
def mpegBroken (frames : List Bytes) : Device :=
  { webcam frames with
    GetAllFormatDescriptions := ([⟨1195724877, "MPEG"⟩, ⟨1196444237, "Motion-JPEG"⟩], none) }

/-- A host on which frames that begin with a zero byte do not decode. -/
def pickyHost : Host :=
  { goodHost with
    Decode := fun frame =>
      if frame.head? = some 0 then .error "image: unknown format" else .ok (⟨[]⟩, "jpeg") }

/-- A device that refuses to start streaming. -/
def busyWebcam : Device :=
  { webcam [] with Start := some "EBUSY" }

/-- A device whose stream stop fails. -/
def stuckWebcam (frames : List Bytes) : Device :=
  { webcam frames with Stop := some "EIO" }

/-- Value of a string of decimal digits. -/
def decimalValue (cs : List Char) : Nat :=
  cs.foldl (fun a c => 10 * a + (c.toNat - 48)) 0

/-! ## Decimal rendering of the frame index -/

theorem digitChar_toNat (d : Nat) (h : d < 10) : (Nat.digitChar d).toNat - 48 = d := by
  interval_cases d <;> rfl

theorem foldl_toDigitsCore (fuel : Nat) :
    ∀ (n : Nat) (ds : List Char), n < fuel →
      (Nat.toDigitsCore 10 fuel n ds).foldl (fun a c => 10 * a + (c.toNat - 48)) 0 =
        ds.foldl (fun a c => 10 * a + (c.toNat - 48)) n := by
  induction fuel with
  | zero => intro n ds h; omega
  | succ fuel ih =>
    intro n ds h
    simp only [Nat.toDigitsCore]
    have hd : (Nat.digitChar (n % 10)).toNat - 48 = n % 10 :=
      digitChar_toNat _ (Nat.mod_lt _ (by decide))
    split
    · rename_i h0
      simp only [List.foldl_cons, hd]
      congr 1
      omega
    · rename_i h0
      rw [ih (n / 10) _ (by omega)]
      simp only [List.foldl_cons, hd]
      congr 1
      omega

theorem decimalValue_toDigits (n : Nat) : decimalValue (Nat.toDigits 10 n) = n := by
  unfold decimalValue Nat.toDigits
  rw [foldl_toDigitsCore (n + 1) n [] (by omega)]
  rfl

theorem toString_nat_injective (a b : Nat) (h : toString a = toString b) : a = b := by
  have h1 : Nat.toDigits 10 a = Nat.toDigits 10 b := by
    have := congrArg String.data h
    simpa [toString, Nat.repr, List.asString] using this
  have h2 := congrArg decimalValue h1
  simpa [decimalValue_toDigits] using h2

theorem fileName_injective (a b : Nat) (h : fileName a = fileName b) : a = b := by
  apply toString_nat_injective
  have h1 := congrArg String.data h
  simp only [fileName, String.data_append, List.append_assoc] at h1
  have h2 := List.append_cancel_left h1
  have h3 := List.append_cancel_right h2
  exact String.ext h3

/-! ## Projections of a trace -/

theorem filesCreated_append (a b : List Event) :
    filesCreated (a ++ b) = filesCreated a ++ filesCreated b := by
  induction a with
  | nil => rfl
  | cons e a ih =>
    cases e with
    | osCreate name err =>
      cases err with
      | none => simp [filesCreated, ih]
      | some x => simp [filesCreated, ih]
    | _ => simp [filesCreated, ih]

theorem filesWritten_append (a b : List Event) :
    filesWritten (a ++ b) = filesWritten a ++ filesWritten b := by
  induction a with
  | nil => rfl
  | cons e a ih =>
    cases e with
    | fileWrite name data err =>
      cases err with
      | none => simp [filesWritten, ih]
      | some x => simp [filesWritten, ih]
    | _ => simp [filesWritten, ih]

theorem framesReceived_append (a b : List Event) :
    framesReceived (a ++ b) = framesReceived a ++ framesReceived b := by
  induction a with
  | nil => rfl
  | cons e a ih => cases e <;> simp [framesReceived, ih]

theorem mem_filesCreated (name : String) (tr : List Event) :
    name ∈ filesCreated tr ↔ Event.osCreate name none ∈ tr := by
  induction tr with
  | nil => simp [filesCreated]
  | cons e tr ih =>
    cases e with
    | osCreate n err =>
      cases err with
      | none => simp [filesCreated, ih]
      | some x => simp [filesCreated, ih]
    | _ => simp [filesCreated, ih]

/-! ## One iteration of the frame loop -/

/-- Every `os.Create` of the iteration for frame `count` is for `fileName count`. -/
theorem processFrame_osCreate (host : Host) (count : Nat) (frame : Bytes) (name : String)
    (err : GoError) (h : Event.osCreate name err ∈ processFrame host count frame) :
    name = fileName count := by
  unfold processFrame at h
  split at h
  · simp at h
  · split at h
    · simp at h
    · split at h
      · simp at h
      · split at h
        · simp at h; exact h.1
        · split at h
          · simp at h; exact h.1
          · split at h <;> simp at h <;> exact h.1

/-- An iteration creates no file, or the one file `fileName count`. -/
theorem filesCreated_processFrame (host : Host) (count : Nat) (frame : Bytes) :
    filesCreated (processFrame host count frame) = [] ∨
      filesCreated (processFrame host count frame) = [fileName count] := by
  unfold processFrame
  split
  · left; rfl
  · split
    · left; rfl
    · split
      · left; rfl
      · split
        · left; rfl
        · split
          · right; rfl
          · right; split <;> rfl

/-- An iteration writes no file, or the frame itself to `fileName count`. -/
theorem filesWritten_processFrame (host : Host) (count : Nat) (frame : Bytes) :
    filesWritten (processFrame host count frame) = [] ∨
      filesWritten (processFrame host count frame) = [(fileName count, frame)] := by
  unfold processFrame
  split
  · left; rfl
  · split
    · left; rfl
    · split
      · left; rfl
      · split
        · left; rfl
        · split
          · left; rfl
          · right; split <;> rfl

theorem framesReceived_processFrame (host : Host) (count : Nat) (frame : Bytes) :
    framesReceived (processFrame host count frame) = [] := by
  unfold processFrame
  split
  · rfl
  · split
    · rfl
    · split
      · rfl
      · split
        · rfl
        · split
          · rfl
          · split <;> rfl

/-! ## The frame loop -/

/-- As long as the limit is not reached, the loop handles the frames in
order and goes on with the rest of the stream. -/
theorem frameLoop_append (host : Host) (totalFrames : Int) (pre post : List Bytes) :
    ∀ count : Nat, ((count + pre.length : Nat) : Int) ≤ totalFrames →
      frameLoop host totalFrames (pre ++ post) count =
        ((frameLoop host totalFrames post (count + pre.length)).1,
          processAll host pre count ++ (frameLoop host totalFrames post (count + pre.length)).2) := by
  induction pre with
  | nil => intro count _; simp [processAll]
  | cons f pre ih =>
    intro count h
    simp only [List.length_cons] at h
    have hlt : ¬ ((count : Int) ≥ totalFrames) := by omega
    have h2 : (((count + 1) + pre.length : Nat) : Int) ≤ totalFrames := by
      have : count + 1 + pre.length = count + (pre.length + 1) := by omega
      rw [this]; exact h
    have e : count + (f :: pre).length = count + 1 + pre.length := by
      simp only [List.length_cons]; omega
    rw [e, List.cons_append]
    simp only [frameLoop, hlt, if_false, processAll]
    rw [ih (count + 1) h2]
    simp only [List.append_assoc, List.cons_append]

/-- Once the limit is reached, the loop receives one frame and stops. -/
theorem frameLoop_full (host : Host) (totalFrames : Int) (frames : List Bytes) (count : Nat)
    (h : (count : Int) ≥ totalFrames) :
    frameLoop host totalFrames frames count =
      (count, match frames with
        | [] => []
        | frame :: _ => [Event.devRecv frame]) := by
  cases frames with
  | nil => rfl
  | cons f rest => simp [frameLoop, h]

theorem framesReceived_processAll (host : Host) (frames : List Bytes) :
    ∀ count : Nat, framesReceived (processAll host frames count) = frames := by
  induction frames with
  | nil => intro count; rfl
  | cons f rest ih =>
    intro count
    simp [processAll, framesReceived, framesReceived_append, framesReceived_processFrame, ih]

/-- From any value of `count`, the loop creates at most `totalFrames - count`
files. -/
theorem filesCreated_frameLoop_le (host : Host) (totalFrames : Int) (frames : List Bytes) :
    ∀ count : Nat,
      ((filesCreated (frameLoop host totalFrames frames count).2).length : Int) ≤
        max (totalFrames - count) 0 := by
  induction frames with
  | nil => intro count; simp [frameLoop, filesCreated]
  | cons f rest ih =>
    intro count
    by_cases h : (count : Int) ≥ totalFrames
    · simp [frameLoop, h, filesCreated]
    · have h1 := ih (count + 1)
      have h2 : (filesCreated (processFrame host (count + 1) f)).length ≤ 1 := by
        rcases filesCreated_processFrame host (count + 1) f with h3 | h3 <;> simp [h3]
      simp only [frameLoop, h, if_false, filesCreated, filesCreated_append, List.length_append]
      push_cast at h1 ⊢
      omega

/-- The whole loop: the first `totalFrames` frames are handled, and one more
frame is received if the stream has one. -/
theorem frameLoop_eq (host : Host) (totalFrames : Int) (frames : List Bytes) :
    frameLoop host totalFrames frames 0 =
      (min frames.length totalFrames.toNat,
        processAll host (frames.take totalFrames.toNat) 0 ++
          (match frames.drop totalFrames.toNat with
            | [] => []
            | frame :: _ => [Event.devRecv frame])) := by
  have hsplit : frames = frames.take totalFrames.toNat ++ frames.drop totalFrames.toNat :=
    (List.take_append_drop _ _).symm
  have hlen : (frames.take totalFrames.toNat).length = min frames.length totalFrames.toNat := by
    rw [List.length_take]; exact Nat.min_comm _ _
  have hle : ((0 + (frames.take totalFrames.toNat).length : Nat) : Int) ≤ totalFrames ∨
      frames.take totalFrames.toNat = [] := by
    by_cases h0 : 0 ≤ totalFrames
    · left; rw [hlen]; omega
    · right
      have : totalFrames.toNat = 0 := by omega
      rw [this]; rfl
  rcases hle with hle | hnil
  · conv_lhs => rw [hsplit]
    rw [frameLoop_append host totalFrames _ _ 0 hle, hlen]
    simp only [Nat.zero_add]
    cases hd : frames.drop totalFrames.toNat with
    | nil => simp [frameLoop]
    | cons f rest =>
      have hlt : totalFrames.toNat < frames.length := by
        by_contra hc
        have : frames.drop totalFrames.toNat = [] := List.drop_eq_nil_of_le (by omega)
        rw [this] at hd; cases hd
      have hfull : ((min frames.length totalFrames.toNat : Nat) : Int) ≥ totalFrames := by omega
      rw [frameLoop_full host totalFrames _ _ hfull]
  · have h0 : totalFrames.toNat = 0 ∨ frames = [] := by
      rcases Nat.eq_zero_or_pos totalFrames.toNat with h | h
      · left; exact h
      · right
        cases frames with
        | nil => rfl
        | cons f rest =>
          obtain ⟨n, hn⟩ : ∃ n, totalFrames.toNat = n + 1 := ⟨totalFrames.toNat - 1, by omega⟩
          rw [hn] at hnil; simp at hnil
    rcases h0 with h0 | h0
    · have hfull : ((0 : Nat) : Int) ≥ totalFrames := by omega
      rw [frameLoop_full host totalFrames frames 0 hfull, h0]
      simp [processAll]
    · subst h0; simp [frameLoop, processAll]

/-- The iteration for the frame after `pre`, when the limit allows it. -/
theorem frameLoop_at (host : Host) (totalFrames : Int) (pre post : List Bytes) (frame : Bytes)
    (h : ((pre.length + 1 : Nat) : Int) ≤ totalFrames) :
    (frameLoop host totalFrames (pre ++ frame :: post) 0).2 =
      processAll host pre 0 ++ (Event.devRecv frame :: processFrame host (pre.length + 1) frame) ++
        (frameLoop host totalFrames post (pre.length + 1)).2 := by
  have h0 : ((0 + pre.length : Nat) : Int) ≤ totalFrames := by push_cast at h ⊢; omega
  rw [frameLoop_append host totalFrames pre (frame :: post) 0 h0]
  have hlt : ¬ ((pre.length : Int) ≥ totalFrames) := by push_cast at h ⊢; omega
  simp only [frameLoop, hlt, if_false, Nat.zero_add, List.append_assoc, List.cons_append]

/-- The events of the loop are those of handling some first frames, and
possibly one more received frame. -/
theorem frameLoop_events (host : Host) (totalFrames : Int) (frames : List Bytes) :
    ∀ count : Nat, ∃ n : Nat,
      (frameLoop host totalFrames frames count).2 =
        processAll host (frames.take n) count ++
          (match frames.drop n with
            | [] => []
            | frame :: _ => [Event.devRecv frame]) := by
  induction frames with
  | nil => intro count; exact ⟨0, rfl⟩
  | cons f rest ih =>
    intro count
    by_cases h : (count : Int) ≥ totalFrames
    · exact ⟨0, by simp [frameLoop, h, processAll]⟩
    · obtain ⟨n, hn⟩ := ih (count + 1)
      refine ⟨n + 1, ?_⟩
      simp only [frameLoop, h, if_false, hn, List.take_succ_cons, List.drop_succ_cons, processAll,
        List.append_assoc, List.cons_append]

/-- Files are created under the names of frame indices only. -/
theorem processAll_osCreate (host : Host) (name : String) (err : GoError) (frames : List Bytes) :
    ∀ count : Nat, Event.osCreate name err ∈ processAll host frames count →
      ∃ i, count < i ∧ i ≤ count + frames.length ∧ name = fileName i := by
  induction frames with
  | nil => intro count h; simp [processAll] at h
  | cons f rest ih =>
    intro count h
    simp only [processAll, List.mem_cons, List.mem_append, reduceCtorEq, false_or] at h
    rcases h with h | h
    · exact ⟨count + 1, by omega, by simp, processFrame_osCreate host _ _ _ _ h⟩
    · obtain ⟨i, h1, h2, h3⟩ := ih (count + 1) h
      exact ⟨i, by omega, by simp only [List.length_cons]; omega, h3⟩

theorem frameLoop_osCreate (host : Host) (totalFrames : Int) (name : String) (err : GoError)
    (frames : List Bytes) (count : Nat)
    (h : Event.osCreate name err ∈ (frameLoop host totalFrames frames count).2) :
    ∃ i, count < i ∧ i ≤ count + frames.length ∧ name = fileName i := by
  obtain ⟨n, hn⟩ := frameLoop_events host totalFrames frames count
  rw [hn] at h
  have h1 : Event.osCreate name err ∈ processAll host (frames.take n) count := by
    rcases List.mem_append.mp h with h | h
    · exact h
    · split at h <;> simp at h
  obtain ⟨i, h2, h3, h4⟩ := processAll_osCreate host name err _ count h1
  refine ⟨i, h2, ?_, h4⟩
  have : (frames.take n).length ≤ frames.length := by
    rw [List.length_take]; exact Nat.min_le_right _ _
  omega

/-- The files written by handling a run of frames carry strictly increasing
frame indices. -/
theorem filesWritten_processAll (host : Host) (frames : List Bytes) :
    ∀ count : Nat, ∃ idxs : List Nat,
      idxs.Pairwise (fun a b => a < b) ∧
      (∀ i ∈ idxs, count < i ∧ i ≤ count + frames.length) ∧
      (filesWritten (processAll host frames count)).map Prod.fst = idxs.map fileName := by
  induction frames with
  | nil => intro count; exact ⟨[], List.Pairwise.nil, by simp, rfl⟩
  | cons f rest ih =>
    intro count
    obtain ⟨idxs, h1, h2, h3⟩ := ih (count + 1)
    have hw : filesWritten (processAll host (f :: rest) count) =
        filesWritten (processFrame host (count + 1) f) ++
          filesWritten (processAll host rest (count + 1)) := by
      simp [processAll, filesWritten, filesWritten_append]
    rcases filesWritten_processFrame host (count + 1) f with h | h
    · refine ⟨idxs, h1, ?_, ?_⟩
      · intro i hi
        have := h2 i hi
        simp only [List.length_cons]; omega
      · rw [hw, h]; simpa using h3
    · refine ⟨(count + 1) :: idxs, ?_, ?_, ?_⟩
      · refine List.Pairwise.cons ?_ h1
        intro i hi
        have := h2 i hi
        omega
      · intro i hi
        rcases List.mem_cons.mp hi with hi | hi
        · subst hi; simp
        · have := h2 i hi
          simp only [List.length_cons]; omega
      · rw [hw, h]; simpa using h3

theorem filesWritten_frameLoop (host : Host) (totalFrames : Int) (frames : List Bytes)
    (count : Nat) : ∃ idxs : List Nat,
      idxs.Pairwise (fun a b => a < b) ∧
      (∀ i ∈ idxs, count < i ∧ i ≤ count + frames.length) ∧
      (filesWritten (frameLoop host totalFrames frames count).2).map Prod.fst =
        idxs.map fileName := by
  obtain ⟨n, hn⟩ := frameLoop_events host totalFrames frames count
  obtain ⟨idxs, h1, h2, h3⟩ := filesWritten_processAll host (frames.take n) count
  refine ⟨idxs, h1, ?_, ?_⟩
  · intro i hi
    have := h2 i hi
    have : (frames.take n).length ≤ frames.length := by
      rw [List.length_take]; exact Nat.min_le_right _ _
    omega
  · rw [hn, filesWritten_append, List.map_append, h3]
    split <;> simp [filesWritten]

/-- Files named after other frame indices are not the file of frame `k`. -/
theorem filter_fileName_nil (k : Nat) (ws : List (String × Bytes)) (idxs : List Nat)
    (hmap : ws.map Prod.fst = idxs.map fileName) (hne : ∀ i ∈ idxs, i ≠ k) :
    ws.filter (fun x => decide (x.1 = fileName k)) = [] := by
  rw [List.filter_eq_nil_iff]
  intro x hx hp
  have hx1 : x.1 ∈ ws.map Prod.fst := List.mem_map_of_mem _ hx
  rw [hmap] at hx1
  obtain ⟨i, hi, he⟩ := List.mem_map.mp hx1
  have hk : x.1 = fileName k := by simpa using hp
  exact hne i hi (fileName_injective i k (he.trans hk))

/-! ## The search for a preferred format -/

theorem findPreferredFmt_none (allFormats : List FormatDescription) (pixFmt : Nat)
    (desc : FormatDescription) (h : findPreferredFmt allFormats pixFmt = (desc, none)) :
    desc.PixelFormat = pixFmt ∧
      allFormats.any (fun d => decide (d.PixelFormat = pixFmt)) = true := by
  induction allFormats with
  | nil => simp [findPreferredFmt] at h
  | cons d rest ih =>
    unfold findPreferredFmt at h
    split at h
    · rename_i hd
      simp only [Prod.mk.injEq, and_true] at h
      subst h
      exact ⟨hd, by simp [hd]⟩
    · obtain ⟨h1, h2⟩ := ih h
      exact ⟨h1, by simp [h2]⟩

theorem findPreferredFmt_some (allFormats : List FormatDescription) (pixFmt : Nat)
    (desc : FormatDescription) (e : String)
    (h : findPreferredFmt allFormats pixFmt = (desc, some e)) :
    allFormats.any (fun d => decide (d.PixelFormat = pixFmt)) = false := by
  induction allFormats with
  | nil => rfl
  | cons d rest ih =>
    unfold findPreferredFmt at h
    split at h
    · simp at h
    · rename_i hd
      simp [hd, ih h]

/-- The search loop only issues frame-size queries. -/
theorem searchPreferred_events (dev : Device) (allFormats : List FormatDescription)
    (prefs : List Nat) :
    ∀ (sizes : List FrameSizeEnum) (fmt : FormatDescription),
      ∀ e ∈ (searchPreferred dev allFormats prefs sizes fmt).events,
        ∃ p err, e = Event.devGetFormatFrameSizes p err := by
  induction prefs with
  | nil => intro sizes fmt e he; simp [searchPreferred] at he
  | cons p rest ih =>
    intro sizes fmt e he
    unfold searchPreferred at he
    split at he
    · exact ih _ _ e he
    · simp only at he
      split at he
      · rcases List.mem_cons.mp he with h | h
        · exact ⟨_, _, h⟩
        · exact ih _ _ e h
      · split at he
        · simp only [List.mem_singleton] at he
          exact ⟨_, _, he⟩
        · rcases List.mem_cons.mp he with h | h
          · exact ⟨_, _, h⟩
          · exact ih _ _ e h

/-- When a failing frame-size query returns no sizes, the search loop stops
at the first usable format of its list, and leaves `sizes` empty if there is
none. -/
theorem searchPreferred_spec (dev : Device)
    (hErr : ∀ p, (dev.GetFormatFrameSizes p).2 ≠ none → (dev.GetFormatFrameSizes p).1 = [])
    (prefs : List Nat) :
    ∀ fmt0 : FormatDescription,
      (∀ p, prefs.find? (usable dev) = some p →
        (searchPreferred dev dev.GetAllFormatDescriptions.1 prefs [] fmt0).sizes =
            (dev.GetFormatFrameSizes p).1 ∧
          (searchPreferred dev dev.GetAllFormatDescriptions.1 prefs [] fmt0).preferredFmt.PixelFormat
            = p ∧
          (dev.GetFormatFrameSizes p).1 ≠ []) ∧
      (prefs.find? (usable dev) = none →
        (searchPreferred dev dev.GetAllFormatDescriptions.1 prefs [] fmt0).sizes = []) := by
  induction prefs with
  | nil => intro fmt0; simp [searchPreferred]
  | cons q rest ih =>
    intro fmt0
    cases hfind : findPreferredFmt dev.GetAllFormatDescriptions.1 q with
    | mk desc err =>
      cases err with
      | some e =>
        have hany := findPreferredFmt_some _ _ _ _ hfind
        have hu : usable dev q = false := by simp [usable, hany]
        have hs : searchPreferred dev dev.GetAllFormatDescriptions.1 (q :: rest) [] fmt0 =
            searchPreferred dev dev.GetAllFormatDescriptions.1 rest [] desc := by
          rw [searchPreferred, hfind]
        rw [hs, List.find?_cons, hu]
        exact ih desc
      | none =>
        obtain ⟨hq, hany⟩ := findPreferredFmt_none _ _ _ hfind
        cases herr : (dev.GetFormatFrameSizes q).2 with
        | some e =>
          have hnil : (dev.GetFormatFrameSizes q).1 = [] := hErr q (by simp [herr])
          have hu : usable dev q = false := by simp [usable, herr]
          have hs1 : (searchPreferred dev dev.GetAllFormatDescriptions.1 (q :: rest) [] fmt0).sizes =
              (searchPreferred dev dev.GetAllFormatDescriptions.1 rest [] desc).sizes := by
            rw [searchPreferred, hfind]
            simp only [hq, herr, hnil]
          have hs2 : (searchPreferred dev dev.GetAllFormatDescriptions.1 (q :: rest) [] fmt0).preferredFmt =
              (searchPreferred dev dev.GetAllFormatDescriptions.1 rest [] desc).preferredFmt := by
            rw [searchPreferred, hfind]
            simp only [hq, herr, hnil]
          rw [hs1, hs2, List.find?_cons, hu]
          exact ih desc
        | none =>
          by_cases hlen : (dev.GetFormatFrameSizes q).1.length > 0
          · have hne : (dev.GetFormatFrameSizes q).1 ≠ [] := by
              intro h0; rw [h0] at hlen; simp at hlen
            have hu : usable dev q = true := by
              simp [usable, herr, hany, hne]
            have hs : searchPreferred dev dev.GetAllFormatDescriptions.1 (q :: rest) [] fmt0 =
                ⟨(dev.GetFormatFrameSizes q).1, desc,
                  [Event.devGetFormatFrameSizes q none]⟩ := by
              rw [searchPreferred, hfind]
              simp only [hq, herr, hlen, if_true]
            rw [hs, List.find?_cons, hu]
            refine ⟨?_, by simp⟩
            intro p hp
            simp only [Option.some.injEq] at hp
            subst hp
            exact ⟨rfl, hq, hne⟩
          · have hnil : (dev.GetFormatFrameSizes q).1 = [] := by
              cases h0 : (dev.GetFormatFrameSizes q).1 with
              | nil => rfl
              | cons a b => rw [h0] at hlen; simp at hlen
            have hu : usable dev q = false := by simp [usable, hnil]
            have hs1 : (searchPreferred dev dev.GetAllFormatDescriptions.1 (q :: rest) [] fmt0).sizes =
                (searchPreferred dev dev.GetAllFormatDescriptions.1 rest [] desc).sizes := by
              rw [searchPreferred, hfind]
              simp only [hq, herr, hnil, List.length_nil, gt_iff_lt, Nat.lt_irrefl, if_false]
            have hs2 : (searchPreferred dev dev.GetAllFormatDescriptions.1 (q :: rest) [] fmt0).preferredFmt =
                (searchPreferred dev dev.GetAllFormatDescriptions.1 rest [] desc).preferredFmt := by
              rw [searchPreferred, hfind]
              simp only [hq, herr, hnil, List.length_nil, gt_iff_lt, Nat.lt_irrefl, if_false]
            rw [hs1, hs2, List.find?_cons, hu]
            exact ih desc

/-! ## The shape of a run -/

theorem negotiated_isQuery (dev : Device) : ∀ e ∈ (negotiated dev).events, e.isQuery = true := by
  intro e he
  obtain ⟨p, err, h⟩ := searchPreferred_events dev _ _ _ _ e he
  subst h; rfl

/-- Events before the pixel format is set receive no frame. -/
theorem framesReceived_of_isQuery (l : List Event) (h : ∀ e ∈ l, e.isQuery = true) :
    framesReceived l = [] := by
  induction l with
  | nil => rfl
  | cons e l ih =>
    have he := h e (List.mem_cons_self _ _)
    have hl := ih (fun x hx => h x (List.mem_cons_of_mem _ hx))
    cases e <;> simp_all [framesReceived, Event.isQuery]

/-- Events before the pixel format is set create no file. -/
theorem filesCreated_of_isQuery (l : List Event) (h : ∀ e ∈ l, e.isQuery = true) :
    filesCreated l = [] := by
  induction l with
  | nil => rfl
  | cons e l ih =>
    have he := h e (List.mem_cons_self _ _)
    have hl := ih (fun x hx => h x (List.mem_cons_of_mem _ hx))
    cases e <;> simp_all [filesCreated, Event.isQuery]

/-- The runs of `main`: an error of open or of one of the first two queries,
no usable format, an error of set, read-back or start, or a capture. -/
theorem main_cases (dev : Device) (host : Host) (flags : Flags) :
    ∃ head : List Event, (∀ e ∈ head, e.isQuery = true) ∧
      ((∃ e msg, (e = Event.devOpen flags.devName (some msg) ∨ e = Event.devGetFrameRate (some msg)
            ∨ e = Event.devGetAllFormatDescriptions (some msg)) ∧
          ∃ txt, main dev host flags = ⟨head ++ [e, Event.logFatal txt], 1⟩) ∨
       ((negotiated dev).sizes = [] ∧ ∃ txt, main dev host flags = ⟨head ++ [Event.logFatal txt], 1⟩) ∨
       ((negotiated dev).sizes ≠ [] ∧
         ((∃ msg txt, main dev host flags =
            ⟨head ++ [Event.devSetPixFormat
              (chosenPixFormat dev (negotiated dev).sizes (negotiated dev).preferredFmt) (some msg),
              Event.logFatal txt], 1⟩) ∨
          (∃ msg txt, main dev host flags =
            ⟨head ++ [Event.devSetPixFormat
              (chosenPixFormat dev (negotiated dev).sizes (negotiated dev).preferredFmt) none,
              Event.devGetPixFormat (some msg), Event.logFatal txt], 1⟩) ∨
          (∃ msg txt, main dev host flags =
            ⟨head ++ [Event.devSetPixFormat
              (chosenPixFormat dev (negotiated dev).sizes (negotiated dev).preferredFmt) none,
              Event.devGetPixFormat none, Event.log "Pixel format set to [%s]",
              Event.devStart (some msg), Event.logFatal txt], 1⟩) ∨
          (main dev host flags =
            ⟨head ++ [Event.devSetPixFormat
              (chosenPixFormat dev (negotiated dev).sizes (negotiated dev).preferredFmt) none,
              Event.devGetPixFormat none, Event.log "Pixel format set to [%s]",
              Event.devStart none, Event.devBufferCount,
              Event.log "Capturing %d frames (buffers: %d, %d fps)..."] ++
              (frameLoop host flags.totalFrames dev.GetOutput 0).2 ++ (shutdown dev).trace,
              (shutdown dev).status⟩)))) := by
  unfold main
  split
  · rename_i e he
    exact ⟨[], by simp, Or.inl ⟨_, e, Or.inl rfl, _, rfl⟩⟩
  · split
    · rename_i e he
      exact ⟨[Event.devOpen flags.devName none], by simp [Event.isQuery],
        Or.inl ⟨_, e, Or.inr (Or.inl rfl), _, rfl⟩⟩
    · split
      · rename_i e he
        exact ⟨[Event.devOpen flags.devName none, Event.devGetFrameRate none],
          by simp [Event.isQuery], Or.inl ⟨_, e, Or.inr (Or.inr rfl), _, rfl⟩⟩
      · have hq := negotiated_isQuery dev
        simp only
        split
        · rename_i hlen
          refine ⟨[Event.devOpen flags.devName none, Event.devGetFrameRate none,
            Event.devGetAllFormatDescriptions none] ++ (negotiated dev).events, ?_,
            Or.inr (Or.inl ⟨List.length_eq_zero.mp hlen, _, rfl⟩)⟩
          intro e he
          rcases List.mem_append.mp he with h | h
          · simp at h; rcases h with h | h | h <;> subst h <;> rfl
          · exact hq e h
        · rename_i hlen
          have hne : (negotiated dev).sizes ≠ [] := fun h => hlen (by rw [h]; rfl)
          refine ⟨[Event.devOpen flags.devName none, Event.devGetFrameRate none,
            Event.devGetAllFormatDescriptions none] ++ (negotiated dev).events ++
            ((if prefSizeFound flags.width flags.height (negotiated dev).sizes = true then []
              else [Event.log "Specified size %dx%d not supported, setting to %dx%d: %s"]) ++
              [Event.log "Found preferred size: %#v"]), ?_, Or.inr (Or.inr ⟨hne, ?_⟩)⟩
          · intro e he
            rcases List.mem_append.mp he with h | h
            · rcases List.mem_append.mp h with h | h
              · simp at h; rcases h with h | h | h <;> subst h <;> rfl
              · exact hq e h
            · rcases List.mem_append.mp h with h | h
              · split at h
                · simp at h
                · simp at h; subst h; rfl
              · simp at h; subst h; rfl
          · unfold configureAndCapture
            simp only
            split
            · rename_i e he
              exact Or.inl ⟨e, "failed to set format: %s", by simp⟩
            · split
              · rename_i e he
                exact Or.inr (Or.inl ⟨e, "failed to get format: %s", by simp⟩)
              · split
                · rename_i e he
                  exact Or.inr (Or.inr (Or.inl ⟨e, "failed to stream: %s", by simp⟩))
                · exact Or.inr (Or.inr (Or.inr (by simp)))

theorem processFrame_isCapture (host : Host) (count : Nat) (frame : Bytes) :
    ∀ e ∈ processFrame host count frame, e.isCapture = true := by
  intro e h
  unfold processFrame at h
  split at h
  · simp at h; subst h; rfl
  · split at h
    · simp at h; rcases h with h | h <;> subst h <;> rfl
    · split at h
      · simp at h; rcases h with h | h | h <;> subst h <;> rfl
      · split at h
        · simp at h; rcases h with h | h | h | h <;> subst h <;> rfl
        · split at h
          · simp at h; rcases h with h | h | h | h | h | h <;> subst h <;> rfl
          · split at h <;> simp at h
            · rcases h with h | h | h | h | h | h | h <;> subst h <;> rfl
            · rcases h with h | h | h | h | h | h <;> subst h <;> rfl

theorem frameLoop_isCapture (host : Host) (totalFrames : Int) (frames : List Bytes) :
    ∀ count : Nat, ∀ e ∈ (frameLoop host totalFrames frames count).2, e.isCapture = true := by
  induction frames with
  | nil => intro count e h; simp [frameLoop] at h
  | cons f rest ih =>
    intro count e h
    unfold frameLoop at h
    split at h
    · simp at h; subst h; rfl
    · simp only [List.mem_cons, List.mem_append] at h
      rcases h with h | h | h
      · subst h; rfl
      · exact processFrame_isCapture host _ _ e h
      · exact ih _ e h

/-- A failed decode or encode leaves the iteration without any `os.Create`. -/
theorem processFrame_failed (host : Host) (count : Nat) (frame : Bytes)
    (hfail : (∃ e, host.Decode frame = .error e) ∨
      (∃ img nm e, host.Decode frame = .ok (img, nm) ∧ host.Encode img = some e)) :
    ∀ name err, Event.osCreate name err ∉ processFrame host count frame := by
  intro name err h
  unfold processFrame at h
  split at h
  · simp at h
  · rcases hfail with ⟨e, he⟩ | ⟨img, nm, e, hd, he⟩
    · rw [he] at h; simp at h
    · rw [hd] at h; simp only [he] at h; simp at h

/-- A frame that passes every step is written to its own file. -/
theorem processFrame_saved (host : Host) (count : Nat) (frame : Bytes) (img : Image)
    (nm : String) (hne : frame ≠ []) (hdec : host.Decode frame = .ok (img, nm))
    (henc : host.Encode img = none) (hcr : host.Create (fileName count) = none)
    (hwr : host.Write (fileName count) frame = none) :
    filesCreated (processFrame host count frame) = [fileName count] ∧
      filesWritten (processFrame host count frame) = [(fileName count, frame)] := by
  have hlen : ¬ frame.length = 0 := fun h => hne (List.length_eq_zero.mp h)
  unfold processFrame
  simp only [hlen, if_false, hdec, henc, hcr, hwr]
  constructor <;> (split <;> rfl)

theorem take_append_head_drop (frames : List Bytes) :
    ∀ n : Nat, frames.take n ++ (match frames.drop n with
        | [] => []
        | frame :: _ => [frame]) = frames.take (n + 1) := by
  induction frames with
  | nil => intro n; simp
  | cons f rest ih =>
    intro n
    cases n with
    | zero => simp
    | succ n => simpa using ih n

/-! ## Further lemmas on runs -/

theorem filesCreated_shutdown (dev : Device) : filesCreated (shutdown dev).trace = [] := by
  unfold shutdown
  split <;> rfl

/-- No `os.Create` for `fileName k` occurs around the iteration of frame `k`. -/
theorem no_create_around (host : Host) (N : Int) (pre post : List Bytes) (err : GoError) :
    Event.osCreate (fileName (pre.length + 1)) err ∉ processAll host pre 0 ∧
      Event.osCreate (fileName (pre.length + 1)) err ∉
        (frameLoop host N post (pre.length + 1)).2 := by
  constructor
  · intro h
    obtain ⟨i, _, h2, h3⟩ := processAll_osCreate host _ _ _ _ h
    have := fileName_injective _ _ h3
    omega
  · intro h
    obtain ⟨i, h1, _, h3⟩ := frameLoop_osCreate host N _ _ _ _ h
    have := fileName_injective _ _ h3
    omega

/-- The iteration of a later frame, in a stream `pre ++ x :: (post1 ++ f :: post2)`. -/
theorem frameLoop_later (host : Host) (N : Int) (pre post1 post2 : List Bytes) (x f : Bytes)
    (h : ((pre.length + 1 + post1.length + 1 : Nat) : Int) ≤ N) :
    (frameLoop host N (pre ++ x :: (post1 ++ f :: post2)) 0).2 =
      processAll host (pre ++ x :: post1) 0 ++
        (Event.devRecv f :: processFrame host (pre.length + 1 + post1.length + 1) f) ++
        (frameLoop host N post2 (pre.length + 1 + post1.length + 1)).2 := by
  have hl : (pre ++ x :: post1).length = pre.length + 1 + post1.length := by
    simp only [List.length_append, List.length_cons]; omega
  have e : pre ++ x :: (post1 ++ f :: post2) = (pre ++ x :: post1) ++ f :: post2 := by simp
  rw [e, frameLoop_at host N (pre ++ x :: post1) post2 f (by rw [hl]; exact h), hl]

theorem isQuery_not_fatal (e : Event) (h : e.isQuery = true) : e.fatalSetupError = false := by
  cases e <;> simp_all [Event.isQuery, Event.fatalSetupError]
  all_goals (rename_i err; cases err <;> simp_all [Event.isQuery, Event.fatalSetupError])

theorem isCapture_not_fatal (e : Event) (h : e.isCapture = true) : e.fatalSetupError = false := by
  cases e <;> simp_all [Event.isCapture, Event.fatalSetupError]

theorem shutdown_not_fatal (dev : Device) :
    ∀ e ∈ (shutdown dev).trace, e.fatalSetupError = false := by
  intro e h
  unfold shutdown at h
  split at h
  · simp at h; rcases h with h | h | h <;> subst h <;> rfl
  · simp at h; rcases h with h | h | h | h <;> subst h <;> rfl

/-- The place of an event of some kind is determined when no other event of
the kind surrounds it. -/
theorem split_unique {α : Type} (P : α → Prop) (X Y pre post : List α) (a b : α)
    (h : X ++ a :: Y = pre ++ b :: post) (hb : P b)
    (hX : ∀ e ∈ X, ¬ P e) (hY : ∀ e ∈ Y, ¬ P e) : pre = X ∧ b = a ∧ post = Y := by
  induction X generalizing pre with
  | nil =>
    cases pre with
    | nil =>
      simp only [List.nil_append, List.cons.injEq] at h
      exact ⟨rfl, h.1.symm, h.2.symm⟩
    | cons p pre =>
      simp only [List.nil_append, List.cons_append, List.cons.injEq] at h
      exfalso
      exact hY b (by rw [h.2]; simp) hb
  | cons x X ih =>
    cases pre with
    | nil =>
      simp only [List.nil_append, List.cons_append, List.cons.injEq] at h
      exfalso
      exact hX x (List.mem_cons_self _ _) (h.1 ▸ hb)
    | cons p pre =>
      simp only [List.cons_append, List.cons.injEq] at h
      obtain ⟨h1, h2, h3⟩ := ih pre h.2 (fun e he => hX e (List.mem_cons_of_mem _ he))
      exact ⟨by rw [h.1, h1], h2, h3⟩

theorem isQuery_not_start (e : Event) (h : e.isQuery = true) : ¬ ∃ err, e = Event.devStart err := by
  rintro ⟨err, rfl⟩
  simp [Event.isQuery] at h

theorem isCapture_not_start (e : Event) (h : e.isCapture = true) :
    ¬ ∃ err, e = Event.devStart err := by
  rintro ⟨err, rfl⟩
  simp [Event.isCapture] at h

theorem shutdown_not_start (dev : Device) :
    ∀ e ∈ (shutdown dev).trace, ¬ ∃ err, e = Event.devStart err := by
  intro e h
  unfold shutdown at h
  split at h
  · simp at h; rcases h with h | h | h <;> subst h <;> simp
  · simp at h; rcases h with h | h | h | h <;> subst h <;> simp

theorem isCapture_not_setPix (e : Event) (h : e.isCapture = true) :
    ¬ ∃ fmt err, e = Event.devSetPixFormat fmt err := by
  rintro ⟨fmt, err, rfl⟩
  simp [Event.isCapture] at h

/-- The only pixel-format set call of a run is for the chosen format, and is
made only when the search ended with sizes. -/
theorem mem_main_setPix (dev : Device) (host : Host) (flags : Flags) (fmt : PixFormat)
    (err : GoError) (h : Event.devSetPixFormat fmt err ∈ (main dev host flags).trace) :
    (negotiated dev).sizes ≠ [] ∧
      fmt = chosenPixFormat dev (negotiated dev).sizes (negotiated dev).preferredFmt := by
  obtain ⟨head, hq, hc⟩ := main_cases dev host flags
  have hhead : Event.devSetPixFormat fmt err ∉ head := fun hm => by
    have := hq _ hm
    simp [Event.isQuery] at this
  rcases hc with ⟨e1, msg, he1, txt, hm⟩ | ⟨_, txt, hm⟩ | ⟨hne, ⟨msg, txt, hm⟩ | ⟨msg, txt, hm⟩ |
    ⟨msg, txt, hm⟩ | hm⟩
  · rw [hm] at h
    rcases he1 with he1 | he1 | he1 <;> subst he1 <;> simp [hhead] at h
  · rw [hm] at h; simp [hhead] at h
  · rw [hm] at h; simp [hhead] at h; exact ⟨hne, h.1⟩
  · rw [hm] at h; simp [hhead] at h; exact ⟨hne, h.1⟩
  · rw [hm] at h; simp [hhead] at h; exact ⟨hne, h.1⟩
  · rw [hm] at h
    simp only [List.mem_append, List.mem_cons, List.mem_singleton, List.not_mem_nil,
      or_false, reduceCtorEq, Event.devSetPixFormat.injEq] at h
    rcases h with ((h | h) | h) | h
    · exact absurd h hhead
    · exact ⟨hne, h.1⟩
    · exact absurd ⟨fmt, err, rfl⟩ (isCapture_not_setPix _ (frameLoop_isCapture host _ _ _ _ h))
    · exfalso
      unfold shutdown at h
      split at h <;> simp at h

/-! ## Properties of the specification -/

/-- C1: the frame loop creates at most `max(N, 0)` output files, whatever the
frames and whatever the results of the per-frame steps; for `N ≤ 0` it
creates none.  The same bound holds for the whole run of `main`. -/
theorem frame_loop_creates_at_most_n_files (dev : Device) (host : Host) (flags : Flags)
    (totalFrames : Int) (frames : List Bytes) :
    ((filesCreated (frameLoop host totalFrames frames 0).2).length : Int) ≤ max totalFrames 0 ∧
    (∀ n : Nat, filesCreated (frameLoop host (-(n : Int)) frames 0).2 = []) ∧
    ((filesCreated (main dev host flags).trace).length : Int) ≤ max flags.totalFrames 0 := by
  have key : ∀ (T : Int) (fs : List Bytes),
      ((filesCreated (frameLoop host T fs 0).2).length : Int) ≤ max T 0 := by
    intro T fs
    have := filesCreated_frameLoop_le host T fs 0
    simpa using this
  refine ⟨key _ _, ?_, ?_⟩
  · intro n
    have h := key (-(n : Int)) frames
    have h0 : max (-(n : Int)) 0 = 0 := by omega
    rw [h0] at h
    exact List.length_eq_zero.mp (by omega)
  · obtain ⟨head, hq, hc⟩ := main_cases dev host flags
    have hhead := filesCreated_of_isQuery head hq
    have hpos : (0 : Int) ≤ max flags.totalFrames 0 := le_max_right _ _
    rcases hc with ⟨e, msg, he, txt, hm⟩ | ⟨_, txt, hm⟩ | ⟨_, ⟨msg, txt, hm⟩ | ⟨msg, txt, hm⟩ |
      ⟨msg, txt, hm⟩ | hm⟩
    · rw [hm]
      rcases he with he | he | he <;> subst he <;>
        simp [filesCreated_append, hhead, filesCreated, hpos]
    · rw [hm]; simp [filesCreated_append, hhead, filesCreated, hpos]
    · rw [hm]; simp [filesCreated_append, hhead, filesCreated, hpos]
    · rw [hm]; simp [filesCreated_append, hhead, filesCreated, hpos]
    · rw [hm]; simp [filesCreated_append, hhead, filesCreated, hpos]
    · rw [hm]
      simp only [filesCreated_append, hhead, filesCreated, filesCreated_shutdown, List.nil_append,
        List.append_nil]
      exact key _ _

/-- C10: for a frame count `N ≥ 0` and a stream of `m` frames, the loop counts
exactly `min(m, N)` frames, the first ones of the stream in order; when the
stream has more it receives one further frame, for which nothing but the
receipt happens, and none after it. -/
theorem frame_loop_counts_min (host : Host) (N : Int) (frames : List Bytes) (hN : 0 ≤ N) :
    frameLoop host N frames 0 =
      (min frames.length N.toNat,
        processAll host (frames.take N.toNat) 0 ++
          (match frames.drop N.toNat with
            | [] => []
            | frame :: _ => [Event.devRecv frame])) ∧
    framesReceived (frameLoop host N frames 0).2 = frames.take (N.toNat + 1) ∧
    filesCreated (frameLoop host N frames 0).2 =
      filesCreated (processAll host (frames.take N.toNat) 0) ∧
    ((min frames.length N.toNat : Nat) : Int) = min (frames.length : Int) N := by
  refine ⟨frameLoop_eq host N frames, ?_, ?_, ?_⟩
  · rw [frameLoop_eq]
    simp only [framesReceived_append, framesReceived_processAll]
    rw [← take_append_head_drop frames N.toNat]
    congr 1
    split <;> rfl
  · rw [frameLoop_eq]
    simp only [filesCreated_append]
    split <;> simp [filesCreated]
  · omega

theorem frame_loop_counts_min_witness :
    (0 : Int) ≤ 2 ∧
      (frameLoop goodHost 2 [[1], [], [3], [4]] 0).1 = 2 ∧
      framesReceived (frameLoop goodHost 2 [[1], [], [3], [4]] 0).2 = [[1], [], [3]] :=
  ⟨by decide,
   (congrArg Prod.fst (frame_loop_counts_min goodHost 2 [[1], [], [3], [4]] (by decide)).1).trans
     (by decide),
   (frame_loop_counts_min goodHost 2 [[1], [], [3], [4]] (by decide)).2.1.trans (by decide)⟩

/-- C2: a zero-length frame at position `k ≤ N` creates no file
`capture_k.jpg` and does not end the loop: the loop goes on with the frames
after it exactly as it does after any other frame `g` at that position (a
saved one in particular), and every later frame at a position `j ≤ N` is
handled by the loop body as frame `j`. -/
theorem empty_frame_skipped (host : Host) (N : Int) (pre post : List Bytes) (g : Bytes)
    (hk : ((pre.length + 1 : Nat) : Int) ≤ N) :
    (frameLoop host N (pre ++ [] :: post) 0).2 =
        processAll host pre 0 ++ [Event.devRecv [], Event.log "received frame size 0"] ++
          (frameLoop host N post (pre.length + 1)).2 ∧
    (∀ err, Event.osCreate (fileName (pre.length + 1)) err ∉
        (frameLoop host N (pre ++ [] :: post) 0).2) ∧
    (frameLoop host N (pre ++ g :: post) 0).2 =
        processAll host pre 0 ++ (Event.devRecv g :: processFrame host (pre.length + 1) g) ++
          (frameLoop host N post (pre.length + 1)).2 ∧
    (∀ post1 f post2, post = post1 ++ f :: post2 →
        ((pre.length + 1 + post1.length + 1 : Nat) : Int) ≤ N →
        (frameLoop host N (pre ++ [] :: post) 0).2 =
          processAll host (pre ++ [] :: post1) 0 ++
            (Event.devRecv f :: processFrame host (pre.length + 1 + post1.length + 1) f) ++
            (frameLoop host N post2 (pre.length + 1 + post1.length + 1)).2) := by
  have h1 := frameLoop_at host N pre post [] hk
  have hp : processFrame host (pre.length + 1) [] = [Event.log "received frame size 0"] := by
    simp [processFrame]
  rw [hp] at h1
  refine ⟨h1, ?_, frameLoop_at host N pre post g hk, ?_⟩
  · intro err h
    rw [h1] at h
    obtain ⟨ha, hb⟩ := no_create_around host N pre post err
    simp only [List.mem_append, List.mem_cons, reduceCtorEq, List.mem_singleton, or_self,
      List.not_mem_nil, or_false] at h
    rcases h with h | h
    · exact ha h
    · exact hb h
  · intro post1 f post2 hpost hj
    subst hpost
    exact frameLoop_later host N pre post1 post2 [] f hj

theorem empty_frame_skipped_witness :
    (((([[1]] : List Bytes).length + 1 : Nat) : Int) ≤ 3) ∧
      (∀ err, Event.osCreate (fileName 2) err ∉
        (frameLoop goodHost 3 ([[1]] ++ [] :: [[3], [4]]) 0).2) :=
  ⟨by decide, (empty_frame_skipped goodHost 3 [[1]] [[3], [4]] [2] (by decide)).2.1⟩

/-- C3: when decoding or re-encoding of the frame at position `k ≤ N` fails,
no file `capture_k.jpg` is created, and every later frame at a position
`j ≤ N` is still handled: its events are those of the loop body applied to
the index `j` and that frame alone. -/
theorem failed_frame_skipped (host : Host) (N : Int) (pre post : List Bytes) (frame : Bytes)
    (hk : ((pre.length + 1 : Nat) : Int) ≤ N)
    (hfail : (∃ e, host.Decode frame = .error e) ∨
      (∃ img nm e, host.Decode frame = .ok (img, nm) ∧ host.Encode img = some e)) :
    filesCreated (processFrame host (pre.length + 1) frame) = [] ∧
    (∀ err, Event.osCreate (fileName (pre.length + 1)) err ∉
        (frameLoop host N (pre ++ frame :: post) 0).2) ∧
    (frameLoop host N (pre ++ frame :: post) 0).2 =
        processAll host pre 0 ++
          (Event.devRecv frame :: processFrame host (pre.length + 1) frame) ++
          (frameLoop host N post (pre.length + 1)).2 ∧
    (∀ post1 f post2, post = post1 ++ f :: post2 →
        ((pre.length + 1 + post1.length + 1 : Nat) : Int) ≤ N →
        (frameLoop host N (pre ++ frame :: post) 0).2 =
          processAll host (pre ++ frame :: post1) 0 ++
            (Event.devRecv f :: processFrame host (pre.length + 1 + post1.length + 1) f) ++
            (frameLoop host N post2 (pre.length + 1 + post1.length + 1)).2) := by
  have h1 := frameLoop_at host N pre post frame hk
  have hno := processFrame_failed host (pre.length + 1) frame hfail
  refine ⟨?_, ?_, h1, ?_⟩
  · rcases filesCreated_processFrame host (pre.length + 1) frame with h | h
    · exact h
    · exfalso
      have hm : fileName (pre.length + 1) ∈ filesCreated (processFrame host (pre.length + 1) frame) := by
        rw [h]; simp
      exact hno _ _ ((mem_filesCreated _ _).mp hm)
  · intro err h
    rw [h1] at h
    obtain ⟨ha, hb⟩ := no_create_around host N pre post err
    simp only [List.mem_append, List.mem_cons, reduceCtorEq, false_or] at h
    rcases h with (h | h) | h
    · exact ha h
    · exact hno _ _ h
    · exact hb h
  · intro post1 f post2 hpost hj
    subst hpost
    exact frameLoop_later host N pre post1 post2 frame f hj

theorem failed_frame_skipped_witness :
    (((([[1]] : List Bytes).length + 1 : Nat) : Int) ≤ 3) ∧
      (∀ err, Event.osCreate (fileName 2) err ∉
        (frameLoop pickyHost 3 ([[1]] ++ [0] :: [[3]]) 0).2) ∧
      filesCreated (frameLoop pickyHost 3 ([[1]] ++ [0] :: [[3]]) 0).2 =
        ["capture_1.jpg", "capture_3.jpg"] :=
  ⟨by decide,
   (failed_frame_skipped pickyHost 3 [[1]] [[3]] [0] (by decide) (Or.inl ⟨_, rfl⟩)).2.1,
   by decide⟩

/-- C4: a non-empty frame at position `k ≤ N` that decodes and re-encodes
without error and whose file is created and written without error is written
to exactly one file, `capture_k.jpg` with `k` in decimal, whose content is the
frame as captured; the files written in one run carry strictly increasing
indices and pairwise distinct names. -/
theorem saved_frame_file (host : Host) (N : Int) (pre post : List Bytes) (frame : Bytes)
    (img : Image) (nm : String)
    (hk : ((pre.length + 1 : Nat) : Int) ≤ N)
    (hne : frame ≠ [])
    (hdec : host.Decode frame = .ok (img, nm))
    (henc : host.Encode img = none)
    (hcr : host.Create (fileName (pre.length + 1)) = none)
    (hwr : host.Write (fileName (pre.length + 1)) frame = none) :
    fileName (pre.length + 1) = "capture_" ++ toString (pre.length + 1) ++ ".jpg" ∧
    decimalValue (toString (pre.length + 1)).data = pre.length + 1 ∧
    filesWritten (processFrame host (pre.length + 1) frame) =
      [(fileName (pre.length + 1), frame)] ∧
    (filesWritten (frameLoop host N (pre ++ frame :: post) 0).2).filter
        (fun x => decide (x.1 = fileName (pre.length + 1))) =
      [(fileName (pre.length + 1), frame)] ∧
    (∃ idxs : List Nat, idxs.Pairwise (fun a b => a < b) ∧
      (filesWritten (frameLoop host N (pre ++ frame :: post) 0).2).map Prod.fst =
        idxs.map fileName) ∧
    ((filesWritten (frameLoop host N (pre ++ frame :: post) 0).2).map Prod.fst).Nodup := by
  have hsaved := (processFrame_saved host (pre.length + 1) frame img nm hne hdec henc hcr hwr).2
  have hidx := filesWritten_frameLoop host N (pre ++ frame :: post) 0
  refine ⟨rfl, ?_, hsaved, ?_, ?_, ?_⟩
  · exact decimalValue_toDigits _
  · rw [frameLoop_at host N pre post frame hk]
    obtain ⟨i1, _, b1, m1⟩ := filesWritten_processAll host pre 0
    obtain ⟨i2, _, b2, m2⟩ := filesWritten_frameLoop host N post (pre.length + 1)
    have f1 := filter_fileName_nil (pre.length + 1) _ i1 m1
      (fun i hi => by have := b1 i hi; omega)
    have f2 := filter_fileName_nil (pre.length + 1) _ i2 m2
      (fun i hi => by have := b2 i hi; omega)
    simp only [filesWritten_append, filesWritten, List.filter_append, f1, f2, hsaved,
      List.nil_append, List.append_nil]
    simp
  · obtain ⟨idxs, h1, _, h3⟩ := hidx
    exact ⟨idxs, h1, h3⟩
  · obtain ⟨idxs, h1, _, h3⟩ := hidx
    rw [h3]
    refine List.Nodup.map (fun a b h => fileName_injective a b h) ?_
    exact h1.imp (fun h => Nat.ne_of_lt h)

theorem saved_frame_file_witness :
    (((([[1]] : List Bytes).length + 1 : Nat) : Int) ≤ 3) ∧
      (filesWritten (frameLoop goodHost 3 ([[1]] ++ [7, 8] :: [[3], [4]]) 0).2).filter
          (fun x => decide (x.1 = fileName 2)) = [("capture_2.jpg", [7, 8])] :=
  ⟨by decide,
   (saved_frame_file goodHost 3 [[1]] [[3], [4]] [7, 8] ⟨[]⟩ "jpeg" (by decide) (by decide) rfl rfl
     rfl rfl).2.2.2.1⟩

/-- C5: in a run whose stream was started, the exit status is 1 (non-zero)
exactly when the stream-stop call returns an error; when it succeeds the run
ends with the line "Done." and status 0, whatever happened in the frame
loop. -/
theorem exit_status_iff_stop_error (dev : Device) (host : Host) (flags : Flags)
    (h : Event.devStart none ∈ (main dev host flags).trace) :
    ((main dev host flags).status = 1 ↔ dev.Stop ≠ none) ∧
    ((main dev host flags).status ≠ 0 ↔ dev.Stop ≠ none) ∧
    (dev.Stop = none → (main dev host flags).status = 0 ∧
      ∃ pre, (main dev host flags).trace =
        pre ++ [Event.devStop none, Event.println "Done.", Event.devClose]) ∧
    (∀ msg, dev.Stop = some msg →
      ∃ pre, (main dev host flags).trace =
        pre ++ [Event.devStop (some msg), Event.println msg]) := by
  obtain ⟨head, hq, hc⟩ := main_cases dev host flags
  have hhead : Event.devStart none ∉ head := fun hm => by
    have := hq _ hm
    simp [Event.isQuery] at this
  rcases hc with ⟨e, msg, he, txt, hm⟩ | ⟨_, txt, hm⟩ | ⟨_, ⟨msg, txt, hm⟩ | ⟨msg, txt, hm⟩ |
    ⟨msg, txt, hm⟩ | hm⟩
  · rw [hm] at h
    rcases he with he | he | he <;> subst he <;> simp [hhead] at h
  · rw [hm] at h; simp [hhead] at h
  · rw [hm] at h; simp [hhead] at h
  · rw [hm] at h; simp [hhead] at h
  · rw [hm] at h; simp [hhead] at h
  · rw [hm]
    cases hs : dev.Stop with
    | none =>
      have hsd : shutdown dev =
          ⟨[Event.cancel, Event.devStop none, Event.println "Done.", Event.devClose], 0⟩ := by
        simp [shutdown, hs]
      rw [hsd]
      refine ⟨by simp, by simp, fun _ => ⟨rfl, ?_⟩, fun msg hmsg => (by cases hmsg)⟩
      exact ⟨head ++ [Event.devSetPixFormat
          (chosenPixFormat dev (negotiated dev).sizes (negotiated dev).preferredFmt) none,
          Event.devGetPixFormat none, Event.log "Pixel format set to [%s]",
          Event.devStart none, Event.devBufferCount,
          Event.log "Capturing %d frames (buffers: %d, %d fps)..."] ++
          (frameLoop host flags.totalFrames dev.GetOutput 0).2 ++ [Event.cancel], by simp⟩
    | some m =>
      have hsd : shutdown dev =
          ⟨[Event.cancel, Event.devStop (some m), Event.println m], 1⟩ := by
        simp [shutdown, hs]
      rw [hsd]
      refine ⟨by simp, by simp, fun hn => (by cases hn), ?_⟩
      intro msg hmsg
      simp only [Option.some.injEq] at hmsg
      subst hmsg
      exact ⟨head ++ [Event.devSetPixFormat
          (chosenPixFormat dev (negotiated dev).sizes (negotiated dev).preferredFmt) none,
          Event.devGetPixFormat none, Event.log "Pixel format set to [%s]",
          Event.devStart none, Event.devBufferCount,
          Event.log "Capturing %d frames (buffers: %d, %d fps)..."] ++
          (frameLoop host flags.totalFrames dev.GetOutput 0).2 ++ [Event.cancel], by simp⟩

theorem exit_status_iff_stop_error_witness :
    Event.devStart none ∈ (main (stuckWebcam [[1]]) goodHost Flags.defaults).trace ∧
      (main (stuckWebcam [[1]]) goodHost Flags.defaults).status = 1 :=
  ⟨by decide,
   (exit_status_iff_stop_error (stuckWebcam [[1]]) goodHost Flags.defaults (by decide)).1.mpr
     (by decide)⟩

/-- C6 (as stated, refuted): on a device whose frame-size query fails for
MPEG and succeeds for MJPEG the failed query does not end the run: the
stream is started, a frame is received and a file is created. -/
theorem frame_size_error_not_fatal :
    Event.devGetFormatFrameSizes 1195724877 (some "EINVAL") ∈
        (main (mpegBroken [[1]]) goodHost Flags.defaults).trace ∧
      (Event.devGetFormatFrameSizes 1195724877 (some "EINVAL")).setupError = true ∧
      Event.devStart none ∈ (main (mpegBroken [[1]]) goodHost Flags.defaults).trace ∧
      framesReceived (main (mpegBroken [[1]]) goodHost Flags.defaults).trace = [[1]] ∧
      filesCreated (main (mpegBroken [[1]]) goodHost Flags.defaults).trace = ["capture_1.jpg"] ∧
      (main (mpegBroken [[1]]) goodHost Flags.defaults).status = 0 := by
  decide

/-- C6 (amended): an error returned by device open, the frame-rate query,
the format-descriptions query, setting or reading back the pixel format, or
stream start ends the run at that call: the only event after it is the
fatal log line, the status is 1, no frame is received and no file created. -/
theorem fatal_setup_error_ends_run (dev : Device) (host : Host) (flags : Flags) (e : Event)
    (he : e ∈ (main dev host flags).trace) (hf : e.fatalSetupError = true) :
    (∃ pre txt, (main dev host flags).trace = pre ++ [e, Event.logFatal txt] ∧
      ∀ x ∈ pre, x.fatalSetupError = false) ∧
    (main dev host flags).status = 1 ∧
    framesReceived (main dev host flags).trace = [] ∧
    filesCreated (main dev host flags).trace = [] := by
  obtain ⟨head, hq, hc⟩ := main_cases dev host flags
  have hhead : e ∉ head := fun hm => by
    have := isQuery_not_fatal e (hq e hm)
    rw [hf] at this; cases this
  have hpre : ∀ x ∈ head, x.fatalSetupError = false := fun x hx => isQuery_not_fatal x (hq x hx)
  have hfr := framesReceived_of_isQuery head hq
  have hfc := filesCreated_of_isQuery head hq
  rcases hc with ⟨e1, msg, he1, txt, hm⟩ | ⟨_, txt, hm⟩ | ⟨_, ⟨msg, txt, hm⟩ | ⟨msg, txt, hm⟩ |
    ⟨msg, txt, hm⟩ | hm⟩
  · rw [hm] at he ⊢
    simp only [List.mem_append, List.mem_cons, List.mem_singleton, List.not_mem_nil,
      or_false] at he
    rcases he with he | he | he
    · exact absurd he hhead
    · subst he
      refine ⟨⟨head, txt, rfl, hpre⟩, rfl, ?_, ?_⟩
      · rcases he1 with h | h | h <;> subst h <;>
          simp [framesReceived_append, hfr, framesReceived]
      · rcases he1 with h | h | h <;> subst h <;>
          simp [filesCreated_append, hfc, filesCreated]
    · subst he; simp [Event.fatalSetupError] at hf
  · rw [hm] at he
    simp only [List.mem_append, List.mem_singleton] at he
    rcases he with he | he
    · exact absurd he hhead
    · subst he; simp [Event.fatalSetupError] at hf
  · rw [hm] at he ⊢
    simp only [List.mem_append, List.mem_cons, List.mem_singleton, List.not_mem_nil,
      or_false] at he
    rcases he with he | he | he
    · exact absurd he hhead
    · subst he
      exact ⟨⟨head, txt, rfl, hpre⟩, rfl, by simp [framesReceived_append, hfr, framesReceived],
        by simp [filesCreated_append, hfc, filesCreated]⟩
    · subst he; simp [Event.fatalSetupError] at hf
  · rw [hm] at he ⊢
    simp only [List.mem_append, List.mem_cons, List.mem_singleton, List.not_mem_nil,
      or_false] at he
    rcases he with he | he | he | he
    · exact absurd he hhead
    · subst he; simp [Event.fatalSetupError] at hf
    · subst he
      refine ⟨⟨head ++ [Event.devSetPixFormat
          (chosenPixFormat dev (negotiated dev).sizes (negotiated dev).preferredFmt) none], txt, by simp, ?_⟩, rfl,
        by simp [framesReceived_append, hfr, framesReceived],
        by simp [filesCreated_append, hfc, filesCreated]⟩
      intro x hx
      rcases List.mem_append.mp hx with hx | hx
      · exact hpre x hx
      · simp only [List.mem_singleton] at hx; subst hx; rfl
    · subst he; simp [Event.fatalSetupError] at hf
  · rw [hm] at he ⊢
    simp only [List.mem_append, List.mem_cons, List.mem_singleton, List.not_mem_nil,
      or_false] at he
    rcases he with he | he | he | he | he | he
    · exact absurd he hhead
    · subst he; simp [Event.fatalSetupError] at hf
    · subst he; simp [Event.fatalSetupError] at hf
    · subst he; simp [Event.fatalSetupError] at hf
    · subst he
      refine ⟨⟨head ++ [Event.devSetPixFormat
          (chosenPixFormat dev (negotiated dev).sizes (negotiated dev).preferredFmt) none, Event.devGetPixFormat none,
          Event.log "Pixel format set to [%s]"], txt, by simp, ?_⟩, rfl,
        by simp [framesReceived_append, hfr, framesReceived],
        by simp [filesCreated_append, hfc, filesCreated]⟩
      intro x hx
      rcases List.mem_append.mp hx with hx | hx
      · exact hpre x hx
      · simp only [List.mem_cons, List.mem_singleton, List.not_mem_nil, or_false] at hx
        rcases hx with hx | hx | hx <;> subst hx <;> rfl
    · subst he; simp [Event.fatalSetupError] at hf
  · exfalso
    rw [hm] at he
    simp only [List.mem_append, List.mem_cons, List.mem_singleton, List.not_mem_nil,
      or_false] at he
    rcases he with ((he | he) | he) | he
    · exact hhead he
    · rcases he with he | he | he | he | he | he <;> subst he <;>
        simp [Event.fatalSetupError] at hf
    · have := isCapture_not_fatal e (frameLoop_isCapture host _ _ _ e he)
      rw [hf] at this; cases this
    · have := shutdown_not_fatal dev e he
      rw [hf] at this; cases this

theorem fatal_setup_error_ends_run_witness :
    Event.devStart (some "EBUSY") ∈ (main busyWebcam goodHost Flags.defaults).trace ∧
      (Event.devStart (some "EBUSY")).fatalSetupError = true ∧
      (main busyWebcam goodHost Flags.defaults).status = 1 ∧
      filesCreated (main busyWebcam goodHost Flags.defaults).trace = [] :=
  ⟨by decide, by decide,
   (fatal_setup_error_ends_run busyWebcam goodHost Flags.defaults (Event.devStart (some "EBUSY"))
     (by decide) (by decide)).2.1,
   (fatal_setup_error_ends_run busyWebcam goodHost Flags.defaults (Event.devStart (some "EBUSY"))
     (by decide) (by decide)).2.2.2⟩

/-- C7 (the code at the failing input): with the sizes 320x240 and 640x480
on offer and 640x480 requested, the request is found among the sizes, yet the
format set on the device is 320x240. -/
theorem requested_size_not_applied :
    prefSizeFound Flags.defaults.width Flags.defaults.height
        ((webcam []).GetFormatFrameSizes 1196444237).1 = true ∧
      main (webcam []) goodHost Flags.defaults =
        ⟨[Event.devOpen "/dev/video0" none, Event.devGetFrameRate none,
          Event.devGetAllFormatDescriptions none,
          Event.devGetFormatFrameSizes 1196444237 none,
          Event.log "Found preferred size: %#v",
          Event.devSetPixFormat ⟨320, 240, 1196444237, 1⟩ none,
          Event.devGetPixFormat none, Event.log "Pixel format set to [%s]",
          Event.devStart none, Event.devBufferCount,
          Event.log "Capturing %d frames (buffers: %d, %d fps)...",
          Event.cancel, Event.devStop none, Event.println "Done.", Event.devClose], 0⟩ := by
  decide

/-- C8: wherever the stream-start call occurs in a run, the events right
before it are a pixel-format set call that returned no error, a read-back
that returned no error and its log line, and everything earlier is open,
queries and log lines. -/
theorem start_after_negotiation (dev : Device) (host : Host) (flags : Flags)
    (pre post : List Event) (err : GoError)
    (h : (main dev host flags).trace = pre ++ Event.devStart err :: post) :
    ∃ p1, pre = p1 ++ [Event.devSetPixFormat
        (chosenPixFormat dev (negotiated dev).sizes (negotiated dev).preferredFmt) none,
        Event.devGetPixFormat none, Event.log "Pixel format set to [%s]"] ∧
      (∀ e ∈ p1, e.isQuery = true) ∧ (negotiated dev).sizes ≠ [] := by
  obtain ⟨head, hq, hc⟩ := main_cases dev host flags
  have hmem : Event.devStart err ∈ (main dev host flags).trace := by rw [h]; simp
  have hhead : Event.devStart err ∉ head := fun hm => isQuery_not_start _ (hq _ hm) ⟨err, rfl⟩
  have hX : ∀ e ∈ head ++ [Event.devSetPixFormat
        (chosenPixFormat dev (negotiated dev).sizes (negotiated dev).preferredFmt) none,
        Event.devGetPixFormat none, Event.log "Pixel format set to [%s]"],
      ¬ ∃ err, e = Event.devStart err := by
    intro e he
    rcases List.mem_append.mp he with he | he
    · exact isQuery_not_start e (hq e he)
    · simp only [List.mem_cons, List.mem_singleton, List.not_mem_nil, or_false] at he
      rcases he with he | he | he <;> subst he <;> simp
  rcases hc with ⟨e1, msg, he1, txt, hm⟩ | ⟨_, txt, hm⟩ | ⟨hne, ⟨msg, txt, hm⟩ | ⟨msg, txt, hm⟩ |
    ⟨msg, txt, hm⟩ | hm⟩
  · rw [hm] at hmem
    rcases he1 with he1 | he1 | he1 <;> subst he1 <;> simp [hhead] at hmem
  · rw [hm] at hmem; simp [hhead] at hmem
  · rw [hm] at hmem; simp [hhead] at hmem
  · rw [hm] at hmem; simp [hhead] at hmem
  · rw [hm] at h
    have h2 : (head ++ [Event.devSetPixFormat
        (chosenPixFormat dev (negotiated dev).sizes (negotiated dev).preferredFmt) none,
        Event.devGetPixFormat none, Event.log "Pixel format set to [%s]"]) ++
        Event.devStart (some msg) :: [Event.logFatal txt] = pre ++ Event.devStart err :: post := by
      rw [← h]; simp
    obtain ⟨hp, _, _⟩ := split_unique (fun e => ∃ err, e = Event.devStart err) _ _ _ _ _ _ h2
      ⟨err, rfl⟩ hX (by simp)
    exact ⟨head, hp, hq, hne⟩
  · rw [hm] at h
    have h2 : (head ++ [Event.devSetPixFormat
        (chosenPixFormat dev (negotiated dev).sizes (negotiated dev).preferredFmt) none,
        Event.devGetPixFormat none, Event.log "Pixel format set to [%s]"]) ++
        Event.devStart none :: ([Event.devBufferCount,
          Event.log "Capturing %d frames (buffers: %d, %d fps)..."] ++
          (frameLoop host flags.totalFrames dev.GetOutput 0).2 ++ (shutdown dev).trace) =
        pre ++ Event.devStart err :: post := by
      rw [← h]; simp
    have hY : ∀ e ∈ [Event.devBufferCount,
          Event.log "Capturing %d frames (buffers: %d, %d fps)..."] ++
          (frameLoop host flags.totalFrames dev.GetOutput 0).2 ++ (shutdown dev).trace,
        ¬ ∃ err, e = Event.devStart err := by
      intro e he
      rcases List.mem_append.mp he with he | he
      · rcases List.mem_append.mp he with he | he
        · simp only [List.mem_cons, List.mem_singleton, List.not_mem_nil, or_false] at he
          rcases he with he | he <;> subst he <;> simp
        · exact isCapture_not_start e (frameLoop_isCapture host _ _ _ e he)
      · exact shutdown_not_start dev e he
    obtain ⟨hp, _, _⟩ := split_unique (fun e => ∃ err, e = Event.devStart err) _ _ _ _ _ _ h2
      ⟨err, rfl⟩ hX hY
    exact ⟨head, hp, hq, hne⟩

theorem start_after_negotiation_witness :
    (main (webcam []) goodHost Flags.defaults).trace =
        [Event.devOpen "/dev/video0" none, Event.devGetFrameRate none,
          Event.devGetAllFormatDescriptions none,
          Event.devGetFormatFrameSizes 1196444237 none,
          Event.log "Found preferred size: %#v",
          Event.devSetPixFormat ⟨320, 240, 1196444237, 1⟩ none,
          Event.devGetPixFormat none, Event.log "Pixel format set to [%s]"] ++
        Event.devStart none ::
          [Event.devBufferCount, Event.log "Capturing %d frames (buffers: %d, %d fps)...",
           Event.cancel, Event.devStop none, Event.println "Done.", Event.devClose] ∧
      (negotiated (webcam [])).sizes ≠ [] :=
  ⟨by decide,
   (start_after_negotiation (webcam []) goodHost Flags.defaults
     [Event.devOpen "/dev/video0" none, Event.devGetFrameRate none,
       Event.devGetAllFormatDescriptions none,
       Event.devGetFormatFrameSizes 1196444237 none,
       Event.log "Found preferred size: %#v",
       Event.devSetPixFormat ⟨320, 240, 1196444237, 1⟩ none,
       Event.devGetPixFormat none, Event.log "Pixel format set to [%s]"]
     [Event.devBufferCount, Event.log "Capturing %d frames (buffers: %d, %d fps)...",
       Event.cancel, Event.devStop none, Event.println "Done.", Event.devClose]
     none (by decide)).elim (fun _ hp => hp.2.2)⟩

/-- C9: on a device whose frame-size query returns no sizes when it returns
an error, a run that sets a pixel format sets the first format of the
preference order MPEG, MJPEG, JPEG, YUYV that the device lists and whose
frame-size query returns a non-empty list without error, and selects the
size among the sizes returned for that format; when no format of the
preference order is such, the run ends fatally and sets no format. -/
theorem preferred_format_selected (dev : Device) (host : Host) (flags : Flags)
    (hErr : ∀ p, (dev.GetFormatFrameSizes p).2 ≠ none → (dev.GetFormatFrameSizes p).1 = []) :
    (∀ fmt err, Event.devSetPixFormat fmt err ∈ (main dev host flags).trace →
      ∃ p, firstUsable dev = some p ∧ fmt.PixelFormat = p ∧
        (negotiated dev).sizes = (dev.GetFormatFrameSizes p).1 ∧
        (negotiated dev).preferredFmt.PixelFormat = p ∧
        fmt = chosenPixFormat dev (dev.GetFormatFrameSizes p).1 (negotiated dev).preferredFmt) ∧
    (firstUsable dev = none →
      (∀ fmt err, Event.devSetPixFormat fmt err ∉ (main dev host flags).trace) ∧
      (main dev host flags).status = 1 ∧
      ∃ pre txt, (main dev host flags).trace = pre ++ [Event.logFatal txt]) := by
  have hspec := searchPreferred_spec dev hErr (preferredPixFmts dev.v4l2) FormatDescription.zero
  constructor
  · intro fmt err h
    obtain ⟨hne, hfmt⟩ := mem_main_setPix dev host flags fmt err h
    cases hu : firstUsable dev with
    | none => exact absurd (hspec.2 hu) hne
    | some p =>
      obtain ⟨h1, h2, _⟩ := hspec.1 p hu
      have h1n : (negotiated dev).sizes = (dev.GetFormatFrameSizes p).1 := h1
      have h2n : (negotiated dev).preferredFmt.PixelFormat = p := h2
      refine ⟨p, rfl, ?_, h1n, h2n, ?_⟩
      · rw [hfmt]; exact h2n
      · rw [hfmt, h1n]
  · intro hu
    have hnil : (negotiated dev).sizes = [] := hspec.2 hu
    refine ⟨fun fmt err h => (mem_main_setPix dev host flags fmt err h).1 hnil, ?_⟩
    obtain ⟨head, hq, hc⟩ := main_cases dev host flags
    rcases hc with ⟨e1, msg, he1, txt, hm⟩ | ⟨_, txt, hm⟩ | ⟨hne, _⟩
    · rw [hm]; exact ⟨rfl, head ++ [e1], txt, by simp⟩
    · rw [hm]; exact ⟨rfl, head, txt, rfl⟩
    · exact absurd hnil hne

theorem preferred_format_selected_witness :
    (∀ p, ((mpegBroken []).GetFormatFrameSizes p).2 ≠ none →
        ((mpegBroken []).GetFormatFrameSizes p).1 = []) ∧
      Event.devSetPixFormat ⟨320, 240, 1196444237, 1⟩ none ∈
        (main (mpegBroken []) goodHost Flags.defaults).trace ∧
      ∃ p, firstUsable (mpegBroken []) = some p ∧
        (⟨320, 240, 1196444237, 1⟩ : PixFormat).PixelFormat = p := by
  have hErr : ∀ p, ((mpegBroken []).GetFormatFrameSizes p).2 ≠ none →
      ((mpegBroken []).GetFormatFrameSizes p).1 = [] := by
    intro p hp
    simp only [mpegBroken, webcam] at hp ⊢
    split at hp
    · simp at hp
    · rename_i hne; simp [hne]
  exact ⟨hErr, by decide,
    ((preferred_format_selected (mpegBroken []) goodHost Flags.defaults hErr).1
      ⟨320, 240, 1196444237, 1⟩ none (by decide)).elim (fun p hp => ⟨p, hp.1, hp.2.1⟩)⟩

end Capture1
